import Mathlib

/-!
# Verification of the pyfda input-widget excerpt

Shallow embedding of the two excerpted source files:

* `pyfda/input_widgets/input_freq_specs.py` (`InputFreqSpecs`): a widget that
  keeps frequency specification values in the shared filter dictionary
  `fb.fil[0]`, normalized to the sampling frequency `f_S`, and synchronizes
  the `QLineEdit` text fields with that dictionary on focus events.
* `pyFDA/inputWidgets/input_params.py` (`InputParams`): the container widget
  whose `startDesignFilt` delegates filter synthesis to an external library.

Python numeric values are embedded as exact rationals `ℚ`; Python's `/`,
which raises `ZeroDivisionError` on a zero divisor, is embedded as a guarded
division; routines that may raise return the state reached when the
exception is thrown together with `Option PyErr`.
-/

namespace Pyfda

/-- Errors a modelled Python operation can raise: a `ZeroDivisionError` from
`/`, or an evaluation error raised by the external expression evaluator
`simple_eval` on malformed input text. -/
inductive PyErr where
  | zeroDivision : PyErr
  | evalError : String → PyErr
  deriving DecidableEq, Repr

/-- The numeric part of the shared filter dictionary `fb.fil[0]`: a total map
from string keys (frequency labels, `f_S`, ...) to rational values, together
with the boolean entry `freq_specs_sort`.  (The Python dict is heterogeneous;
the boolean flag is kept as a separate field.) -/
structure FilDict where
  num : String → ℚ
  freq_specs_sort : Bool

/-- Write one key of the numeric dictionary (`fb.fil[0].update({k: v})`). -/
def FilDict.store (d : FilDict) (k : String) (v : ℚ) : FilDict :=
  { d with num := fun x => if x = k then v else d.num x }

/-- State of one `QLineEdit` widget: its object name (the label of the
frequency spec it edits), its displayed text, visibility and focus. -/
structure LineEdit where
  objectName : String
  text : String
  visible : Bool
  hasFocus : Bool
  deriving DecidableEq, Repr

/-- A fresh `QLineEdit("")` as created in `_show_entries`, named `"dummy"`
and made visible by insertion into the shown grid layout. -/
def LineEdit.dummy : LineEdit :=
  { objectName := "dummy", text := "", visible := true, hasFocus := false }

/-- State of one `QLabel` widget. -/
structure QLabel where
  text : String
  visible : Bool
  deriving DecidableEq, Repr

/-- State of the `InputFreqSpecs` widget together with the shared dictionary
`fb.fil[0]` it reads and writes. -/
structure FState where
  fil : FilDict
  qlabels : List QLabel
  qlineedit : List LineEdit
  new_labels : List String
  spec_edited : Bool
  n_cur_labels : Nat

/-- External text-rendering and parsing environment of the widget:
`fullFmt` is Python's full-precision `str(...)`, `rndFmt` is
`params['FMT'].format(...)`, `simple_eval` is the expression evaluator
imported from `pyfda.simpleeval` (not part of the excerpt), which either
evaluates an input text to a number or raises, and `rtLabel` is the label
renderer `rt_label` from `pyfda_lib` (not part of the excerpt). -/
structure TextEnv where
  fullFmt : ℚ → String
  rndFmt : ℚ → String
  simple_eval : String → Except String ℚ
  rtLabel : String → String

/-- `InputFreqSpecs.load_entries`: for every `QLineEdit`, recompute the
displayed value `fb.fil[0][objectName] * fb.fil[0]['f_S']` and set the text,
at full precision when the widget has focus and rounded otherwise.  Only the
texts change; the dictionary is not written. -/
def load_entries (env : TextEnv) (st : FState) : FState :=
  { st with
    qlineedit := st.qlineedit.map fun le =>
      let f_value : ℚ := st.fil.num le.objectName * st.fil.num "f_S"
      if le.hasFocus then { le with text := env.fullFmt f_value }
      else { le with text := env.rndFmt f_value } }

/-- The write-back loop of `sort_dict_freqs`:
`for i in range(len(qlineedit)): fb.fil[0][name_i] = fSpecs[i]`,
performed left to right (later writes win on duplicate names). -/
def storeSeq (m : String → ℚ) : List (String × ℚ) → (String → ℚ)
  | [] => m
  | (k, v) :: rest => storeSeq (fun x => if x = k then v else m x) rest

/-- `InputFreqSpecs.sort_dict_freqs`: when `fb.fil[0]['freq_specs_sort']` is
set, read the values stored under the object names of all `QLineEdit`
widgets, sort them ascending (`list.sort()`), and write them back under the
same names in widget order; in either case reload the text fields. -/
def sort_dict_freqs (env : TextEnv) (st : FState) : FState :=
  let st1 :=
    if st.fil.freq_specs_sort then
      let names := st.qlineedit.map (·.objectName)
      let fSpecs := (names.map st.fil.num).insertionSort (· ≤ ·)
      { st with fil := { st.fil with num := storeSeq st.fil.num (names.zip fSpecs) } }
    else st
  load_entries env st1

/-- `InputFreqSpecs._store_entry` on the event source `qlineedit[i]`.
When `spec_edited` is set: evaluate the entered text with `simple_eval`
(raising on malformed input), divide by `fb.fil[0]['f_S']` (raising
`ZeroDivisionError` when it is zero), store the normalized value under the
widget's object name, sort and reload, and clear `spec_edited`.  The pair
returned is the state at normal return or at the point the exception is
raised, with the raised error. -/
def store_entry (env : TextEnv) (st : FState) (i : Nat) : FState × Option PyErr :=
  if st.spec_edited then
    let src := st.qlineedit.getD i LineEdit.dummy
    match env.simple_eval src.text with
    | .error e => (st, some (PyErr.evalError e))
    | .ok v =>
      if st.fil.num "f_S" = 0 then (st, some PyErr.zeroDivision)
      else
        let f_value : ℚ := v / st.fil.num "f_S"
        let st1 := { st with fil := st.fil.store src.objectName f_value }
        let st2 := sort_dict_freqs env st1
        ({ st2 with spec_edited := false }, none)
  else (st, none)

/-- Keys a `QKeyEvent` can carry, as distinguished by `eventFilter`. -/
inductive Key where
  | key_return | key_enter | key_escape | key_other
  deriving DecidableEq, Repr

/-- The event types `eventFilter` distinguishes on a `QLineEdit` source. -/
inductive QEv where
  | focusIn | keyPress (k : Key) | focusOut
  deriving DecidableEq, Repr

/-- `InputFreqSpecs.eventFilter` for an event on the `QLineEdit` source
`qlineedit[i]`: `FocusIn` clears `spec_edited` and reloads; a key press sets
`spec_edited`, then Return/Enter stores and Escape reverts; `FocusOut`
stores. -/
def eventFilter (env : TextEnv) (st : FState) (i : Nat) (e : QEv) :
    FState × Option PyErr :=
  match e with
  | .focusIn => (load_entries env { st with spec_edited := false }, none)
  | .keyPress k =>
    let st1 := { st with spec_edited := true }
    match k with
    | .key_return | .key_enter => store_entry env st1 i
    | .key_escape => (load_entries env { st1 with spec_edited := false }, none)
    | .key_other => (st1, none)
  | .focusOut => store_entry env st i

/-- `InputFreqSpecs._hide_entries`: hide the subwidgets with index in
`[num_new_labels, len(qlabels))` so that only the first `num_new_labels`
remain visible.  No widget is removed from the lists. -/
def hide_entries (st : FState) (num : Nat) : FState :=
  { st with
    qlabels := st.qlabels.take num ++
      (st.qlabels.drop num).map (fun lb => { lb with visible := false }),
    qlineedit := st.qlineedit.take num ++
      (st.qlineedit.drop num).map (fun le => { le with visible := false }) }

/-- `InputFreqSpecs._show_entries`: when fewer than `num_new_labels`
subwidgets exist (`len(qlabels) < num_new_labels`), append fresh dummy
`QLabel`/`QLineEdit` pairs up to that count (inserted into the visible grid
layout, with the event filter installed); otherwise make the widgets with
index in `[n_cur_labels, num_new_labels)` visible. -/
def show_entries (env : TextEnv) (st : FState) (num : Nat) : FState :=
  let tot := st.qlabels.length
  if tot < num then
    { st with
      qlabels := st.qlabels ++
        List.replicate (num - tot) { text := env.rtLabel "dummy", visible := true },
      qlineedit := st.qlineedit ++ List.replicate (num - tot) LineEdit.dummy }
  else
    { st with
      qlabels := st.qlabels.take st.n_cur_labels ++
        ((st.qlabels.drop st.n_cur_labels).take (num - st.n_cur_labels)).map
          (fun lb => { lb with visible := true }) ++
        st.qlabels.drop num,
      qlineedit := st.qlineedit.take st.n_cur_labels ++
        ((st.qlineedit.drop st.n_cur_labels).take (num - st.n_cur_labels)).map
          (fun le => { le with visible := true }) ++
        st.qlineedit.drop num }

/-- The `for i in range(num_new_labels)` loop of `update_UI`, acting on the
`QLabel` list: `qlabels[i].setText(rt_label(new_labels[i]))`. -/
def set_labels_loop (rtLabel : String → String) :
    List QLabel → List String → List QLabel
  | ls, [] => ls
  | [], _ => []
  | lb :: ls, nl :: nls => { lb with text := rtLabel nl } :: set_labels_loop rtLabel ls nls

/-- The `for i in range(num_new_labels)` loop of `update_UI`, acting on the
`QLineEdit` list: `qlineedit[i].setText(str(fb.fil[0][new_labels[i]]))` and
`qlineedit[i].setObjectName(new_labels[i])`. -/
def set_edits_loop (fullFmt : ℚ → String) (fil : String → ℚ) :
    List LineEdit → List String → List LineEdit
  | les, [] => les
  | [], _ => []
  | le :: les, nl :: nls =>
    { le with text := fullFmt (fil nl), objectName := nl } ::
      set_edits_loop fullFmt fil les nls

/-- `InputFreqSpecs.update_UI(new_labels)`: hide or show subwidgets to match
the new label count, set every one of the first `len(new_labels)` label
texts, line-edit texts and object names from `new_labels`, record the new
count in `n_cur_labels`, and finally sort and reload via
`sort_dict_freqs`. -/
def update_UI (env : TextEnv) (st : FState) (new_labels : List String) : FState :=
  let num := new_labels.length
  let st0 := { st with new_labels := new_labels }
  let st1 :=
    if num < st0.n_cur_labels then hide_entries st0 num
    else if num > st0.n_cur_labels then show_entries env st0 num
    else st0
  let st2 := { st1 with
    qlabels := set_labels_loop env.rtLabel st1.qlabels new_labels,
    qlineedit := set_edits_loop env.fullFmt st1.fil.num st1.qlineedit new_labels }
  let st3 := { st2 with n_cur_labels := num }
  sort_dict_freqs env st3

/-- A concrete text environment used to instantiate witnesses. -/
def trivEnv : TextEnv :=
  { fullFmt := fun v => toString v
    rndFmt := fun _ => "fmt"
    simple_eval := fun s =>
      if s = "3" then Except.ok 3
      else if s = "7" then Except.ok 7
      else Except.error s
    rtLabel := fun s => s }

/-- A concrete line edit used to instantiate witnesses. -/
def mkLE (n : String) (t : String) (foc : Bool) : LineEdit :=
  { objectName := n, text := t, visible := true, hasFocus := foc }

/-- The state reached inside `_store_entry` right after the dictionary
update `fb.fil[0].update({f_label: f_value})`, before sorting and
reloading. -/
def stored_state (st : FState) (i : Nat) (v : ℚ) : FState :=
  { st with
    fil := st.fil.store (st.qlineedit.getD i LineEdit.dummy).objectName
      (v / st.fil.num "f_S") }

/-- A two-field state used to instantiate the sorting claim. -/
def w2St : FState :=
  { fil := ⟨fun k => if k = "F_SB" then 5 else if k = "F_PB" then 3 else 1, true⟩
    qlabels := []
    qlineedit := [mkLE "F_SB" "" false, mkLE "F_PB" "" false]
    new_labels := []
    spec_edited := false
    n_cur_labels := 2 }

/-- A state whose line edits carry duplicate object names (reachable when a
hidden widget keeps a label that a visible widget also carries). -/
def cexSt : FState :=
  { fil := ⟨fun k => if k = "b" then 5 else 0, true⟩
    qlabels := []
    qlineedit := [mkLE "a" "" false, mkLE "b" "" false, mkLE "a" "" false]
    new_labels := []
    spec_edited := false
    n_cur_labels := 3 }

/-- A state with no widgets at all, as right after `_construct_UI`. -/
def emptySt : FState :=
  { fil := ⟨fun _ => 0, false⟩
    qlabels := []
    qlineedit := []
    new_labels := []
    spec_edited := false
    n_cur_labels := 0 }

end Pyfda

namespace PyFDA

/-- A numpy-style coefficient array as far as `np.ndim` distinguishes it in
`startDesignFilt`: one-dimensional (FIR `b` coefficients) or two-dimensional
(IIR `[b, a]`). -/
inductive NDArr where
  | one (xs : List ℚ)
  | two (xss : List (List ℚ))
  deriving DecidableEq, Repr

/-- `np.ndim` on the embedded arrays. -/
def NDArr.ndim : NDArr → Nat
  | .one _ => 1
  | .two _ => 2

/-- The value stored into `fb.gD['coeffs']`: either the tuple
`(coeffs, [1])` built in the FIR branch, or the filter object's `coeffs`
attribute unchanged. -/
inductive StoredCoeffs where
  | withDen (b : NDArr) (a : List ℚ)
  | asIs (c : NDArr)
  deriving DecidableEq, Repr

/-- Extract numerator and denominator coefficient lists from a stored
`fb.gD['coeffs']` value, when it carries both. -/
def StoredCoeffs.numDen : StoredCoeffs → Option (List ℚ × List ℚ)
  | .withDen (.one b) a => some (b, a)
  | .withDen (.two _) _ => none
  | .asIs (.two [b, a]) => some (b, a)
  | .asIs _ => none

/-- Lines 187-192 of `input_params.py`: the value written to
`fb.gD['coeffs']` from the filter object's `coeffs` attribute —
`(coeffs, [1])` when `np.ndim(coeffs) == 1`, `coeffs` unchanged
otherwise. -/
def storeCoeffs (c : NDArr) : StoredCoeffs :=
  if c.ndim = 1 then StoredCoeffs.withDen c [1] else StoredCoeffs.asIs c

/-- The part of the shared dictionary `fb.gD` that `startDesignFilt`
touches: the `selFilter` sub-dictionary (string-valued keys `dm`, `rt`,
`fo`, ...) and the design outputs `zpk` and `coeffs` (absent before the
first design).  `Z` is the type of zero-pole-gain values, kept abstract. -/
structure GD (Z : Type) where
  selFilter : String → String
  zpk : Option Z
  coeffs : Option StoredCoeffs

/-- The result visible on the filter object after the design call: its
`zpk` and `coeffs` attributes. -/
structure DesignResult (Z : Type) where
  zpk : Z
  coeffs : NDArr

/-- Modelled from the spec: the update methods of the subwidgets
`fo`/`fspec`/`aspec`/`wspec` (`input_order`, `input_units`, absent from the
excerpt) write the widget entries into `fb.gD['selFilter']`, and
`wspec.updateElements` refreshes that widget from the dictionary.  Each is
an abstract transformer of the `selFilter` dictionary. -/
structure WidgetEnv where
  foUpd : (String → String) → (String → String)
  fspecUpd : (String → String) → (String → String)
  aspecUpd : (String → String) → (String → String)
  wspecUpd : (String → String) → (String → String)
  wspecUpdElems : (String → String) → (String → String)

/-- Modelled from the spec: the external filter-synthesis library
(`FilterFileReader` and the design classes, absent from the excerpt).
`objectWizzard` builds a filter object instance (of abstract type `F`) from
a design-method name; `design` invokes the instance method with the given
name on it, passing the spec dictionary, and returns the object's resulting
`zpk` and `coeffs` attributes. -/
structure FilterEnv (Z : Type) (F : Type) where
  objectWizzard : String → F
  design : F → String → (String → String) → DesignResult Z

/-- `InputParams.writeAll`: update `fb.gD['selFilter']` with the currently
selected filter parameters, calling the update methods of the four
subwidgets in source order. -/
def writeAll (w : WidgetEnv) (sf : String → String) : String → String :=
  w.wspecUpd (w.aspecUpd (w.fspecUpd (w.foUpd sf)))

/-- `InputParams.startDesignFilt`: write all widget entries to
`fb.gD['selFilter']` via `writeAll`, build a filter object from the
design-method name `fb.gD['selFilter']['dm']` via `objectWizzard`, invoke
on it the method named `rt + fo` with the spec dictionary, refresh the `fo`
and `wspec` widgets, then copy the object's `zpk` attribute into
`fb.gD['zpk']` and its `coeffs` attribute (with a dummy denominator `[1]`
appended in the FIR case) into `fb.gD['coeffs']`. -/
def startDesignFilt {Z F : Type} (w : WidgetEnv) (env : FilterEnv Z F)
    (g : GD Z) : GD Z :=
  let sf1 := writeAll w g.selFilter
  let myFilter := env.objectWizzard (sf1 "dm")
  let res := env.design myFilter (sf1 "rt" ++ sf1 "fo") sf1
  let sf2 := w.foUpd sf1
  let sf3 := w.wspecUpdElems sf2
  { selFilter := sf3, zpk := some res.zpk, coeffs := some (storeCoeffs res.coeffs) }

end PyFDA

namespace Pyfda

/-! ## Helper lemmas -/

theorem load_entries_fil (env : TextEnv) (st : FState) :
    (load_entries env st).fil = st.fil := rfl

theorem load_entries_spec_edited (env : TextEnv) (st : FState) :
    (load_entries env st).spec_edited = st.spec_edited := rfl

theorem getD_map_of_lt {α β : Type} (g : α → β) (l : List α) (i : Nat)
    (d : β) (d' : α) (hi : i < l.length) :
    (l.map g).getD i d = g (l.getD i d') := by
  rw [List.getD_eq_getElem?_getD, List.getD_eq_getElem?_getD, List.getElem?_map,
      List.getElem?_eq_getElem hi]
  rfl



/-! ## Claim theorems -/

/-- C5: `load_entries` is a pure display refresh with respect to the shared
dictionary: every numeric entry of `fb.fil[0]` and the sort flag are
unchanged by it; only the `QLineEdit` texts are recomputed. -/
theorem load_entries_pure_on_dict (env : TextEnv) (st : FState) (K : String) :
    (load_entries env st).fil.num K = st.fil.num K ∧
    (load_entries env st).fil.freq_specs_sort = st.fil.freq_specs_sort ∧
    (load_entries env st).fil = st.fil :=
  ⟨rfl, rfl, rfl⟩

/-- C4: writes to `fb.fil[0]` on the event path are gated on `spec_edited`:
with `spec_edited` false, a `FocusOut` event (whose handler calls
`_store_entry`) returns the state unchanged and raises nothing, and
`_store_entry` itself is the identity. -/
theorem focusOut_gated_on_spec_edited (env : TextEnv) (st : FState) (i : Nat)
    (h : st.spec_edited = false) :
    eventFilter env st i QEv.focusOut = (st, none) ∧
    store_entry env st i = (st, none) := by
  constructor <;> simp [eventFilter, store_entry, h]

theorem focusOut_gated_on_spec_edited_witness :
    (FState.mk ⟨fun _ => 1, false⟩ [] [mkLE "F_PB" "3" true] [] false 1).spec_edited
        = false ∧
    eventFilter trivEnv
        (FState.mk ⟨fun _ => 1, false⟩ [] [mkLE "F_PB" "3" true] [] false 1) 0
        QEv.focusOut =
      ((FState.mk ⟨fun _ => 1, false⟩ [] [mkLE "F_PB" "3" true] [] false 1), none) :=
  ⟨rfl,
    (focusOut_gated_on_spec_edited trivEnv
      (FState.mk ⟨fun _ => 1, false⟩ [] [mkLE "F_PB" "3" true] [] false 1) 0 rfl).1⟩

/-- C3: on malformed input text (rejected by the expression evaluator),
`_store_entry` with `spec_edited` set re-raises the evaluator's exception
and the whole state — in particular `fb.fil[0]` — is exactly as before,
because the evaluation precedes the dictionary update. -/
theorem store_entry_malformed_raises (env : TextEnv) (st : FState) (i : Nat)
    (e : String) (hedit : st.spec_edited = true)
    (heval : env.simple_eval (st.qlineedit.getD i LineEdit.dummy).text =
      Except.error e) :
    store_entry env st i = (st, some (PyErr.evalError e)) ∧
    (store_entry env st i).1.fil = st.fil := by
  have h1 : store_entry env st i = (st, some (PyErr.evalError e)) := by
    rw [List.getD_eq_getElem?_getD] at heval
    simp [store_entry, hedit, heval]
  exact ⟨h1, by rw [h1]⟩

theorem store_entry_malformed_raises_witness :
    store_entry trivEnv
        (FState.mk ⟨fun _ => 1, false⟩ [] [mkLE "F_PB" "oops" true] [] true 1) 0 =
      ((FState.mk ⟨fun _ => 1, false⟩ [] [mkLE "F_PB" "oops" true] [] true 1),
        some (PyErr.evalError "oops")) :=
  (store_entry_malformed_raises trivEnv
    (FState.mk ⟨fun _ => 1, false⟩ [] [mkLE "F_PB" "oops" true] [] true 1) 0
    "oops" rfl (by simp [trivEnv, mkLE])).1

/-- C8: the division by `fb.fil[0]['f_S']` in `_store_entry` is unguarded:
when `f_S ≠ 0` no `ZeroDivisionError` is ever raised, but when `f_S = 0`
(with `spec_edited` set and numerically valid input) `_store_entry` raises
`ZeroDivisionError` and leaves the state, in particular `fb.fil[0]`,
unchanged. -/
theorem store_entry_division_guard (env : TextEnv) (st : FState) (i : Nat) :
    (st.fil.num "f_S" ≠ 0 →
      (store_entry env st i).2 ≠ some PyErr.zeroDivision) ∧
    (∀ v : ℚ, st.fil.num "f_S" = 0 → st.spec_edited = true →
      env.simple_eval (st.qlineedit.getD i LineEdit.dummy).text = Except.ok v →
      store_entry env st i = (st, some PyErr.zeroDivision)) := by
  constructor
  · intro hfs
    unfold store_entry
    split
    · cases heval : env.simple_eval (st.qlineedit[i]?.getD LineEdit.dummy).text with
      | error e => simp [heval]
      | ok v => simp [heval, hfs]
    · simp
  · intro v hfs hedit heval
    rw [List.getD_eq_getElem?_getD] at heval
    simp [store_entry, hedit, heval, hfs]

theorem store_entry_division_guard_witness :
    store_entry trivEnv
        (FState.mk ⟨fun _ => 0, false⟩ [] [mkLE "F_PB" "3" true] [] true 1) 0 =
      ((FState.mk ⟨fun _ => 0, false⟩ [] [mkLE "F_PB" "3" true] [] true 1),
        some PyErr.zeroDivision) :=
  (store_entry_division_guard trivEnv
      (FState.mk ⟨fun _ => 0, false⟩ [] [mkLE "F_PB" "3" true] [] true 1) 0).2
    3 rfl rfl (by simp [trivEnv, mkLE])

theorem load_entries_getD_text (env : TextEnv) (s : FState) (i : Nat)
    (hi : i < s.qlineedit.length)
    (hfoc : (s.qlineedit.getD i LineEdit.dummy).hasFocus = true) :
    ((load_entries env s).qlineedit.getD i LineEdit.dummy).text =
      env.fullFmt (s.fil.num (s.qlineedit.getD i LineEdit.dummy).objectName *
        s.fil.num "f_S") := by
  have h : (load_entries env s).qlineedit = s.qlineedit.map (fun le =>
      let f_value : ℚ := s.fil.num le.objectName * s.fil.num "f_S"
      if le.hasFocus then { le with text := env.fullFmt f_value }
      else { le with text := env.rndFmt f_value }) := rfl
  rw [h, getD_map_of_lt _ s.qlineedit i LineEdit.dummy LineEdit.dummy hi]
  rw [List.getD_eq_getElem?_getD] at hfoc
  simp [hfoc]


/-- C1: normalized storage round-trips.  Storing an entered value `v` on a
frequency spec field divides it by `fb.fil[0]['f_S']` before writing it
under the field's label, and the subsequent display multiplies the stored
entry by `fb.fil[0]['f_S']` again; with a nonzero, unchanged `f_S` and
sorting disabled, the focused field ends up displaying the full-precision
rendering of the originally entered value. -/
theorem store_entry_roundtrip (env : TextEnv) (st : FState) (i : Nat) (v : ℚ)
    (hi : i < st.qlineedit.length)
    (hedit : st.spec_edited = true)
    (hsort : st.fil.freq_specs_sort = false)
    (hfs : st.fil.num "f_S" ≠ 0)
    (hlab : (st.qlineedit.getD i LineEdit.dummy).objectName ≠ "f_S")
    (hfocus : (st.qlineedit.getD i LineEdit.dummy).hasFocus = true)
    (heval : env.simple_eval (st.qlineedit.getD i LineEdit.dummy).text =
      Except.ok v) :
    (store_entry env st i).2 = none ∧
    (store_entry env st i).1.fil.num
        (st.qlineedit.getD i LineEdit.dummy).objectName =
      v / st.fil.num "f_S" ∧
    ((store_entry env st i).1.qlineedit.getD i LineEdit.dummy).text =
      env.fullFmt v := by
  have heval' : env.simple_eval (st.qlineedit[i]?.getD LineEdit.dummy).text =
      Except.ok v := by
    rw [← List.getD_eq_getElem?_getD]; exact heval
  have key : store_entry env st i =
      ((FState.mk (sort_dict_freqs env (stored_state st i v)).fil
        (sort_dict_freqs env (stored_state st i v)).qlabels
        (sort_dict_freqs env (stored_state st i v)).qlineedit
        (sort_dict_freqs env (stored_state st i v)).new_labels
        false
        (sort_dict_freqs env (stored_state st i v)).n_cur_labels), none) := by
    simp [store_entry, stored_state, hedit, heval', hfs,
      List.getD_eq_getElem?_getD]
  have hsort1 : ∀ s : FState, s.fil.freq_specs_sort = false →
      sort_dict_freqs env s = load_entries env s := by
    intro s h
    simp [sort_dict_freqs, h]
  have hsorted := hsort1 (stored_state st i v) hsort
  have e1 : (stored_state st i v).fil.num
      (st.qlineedit.getD i LineEdit.dummy).objectName = v / st.fil.num "f_S" := by
    simp [stored_state, FilDict.store]
  have e2 : (stored_state st i v).fil.num "f_S" = st.fil.num "f_S" := by
    simp only [stored_state, FilDict.store]
    rw [if_neg (Ne.symm hlab)]
  refine ⟨by rw [key], ?_, ?_⟩
  · rw [key]
    show (sort_dict_freqs env (stored_state st i v)).fil.num _ = _
    rw [hsorted]
    exact e1
  · rw [key]
    show ((sort_dict_freqs env (stored_state st i v)).qlineedit.getD i
      LineEdit.dummy).text = _
    rw [hsorted, load_entries_getD_text env (stored_state st i v) i hi hfocus]
    show env.fullFmt ((stored_state st i v).fil.num _ *
      (stored_state st i v).fil.num "f_S") = _
    rw [show (stored_state st i v).qlineedit = st.qlineedit from rfl,
      e1, e2, div_mul_cancel₀ v hfs]



theorem storeSeq_not_mem (ps : List (String × ℚ)) (k : String) :
    ∀ m : String → ℚ, k ∉ ps.map Prod.fst → storeSeq m ps k = m k := by
  induction ps with
  | nil => intro m _; rfl
  | cons p rest ih =>
    intro m hk
    obtain ⟨a, b⟩ := p
    simp only [List.map_cons, List.mem_cons, not_or] at hk
    show storeSeq (fun x => if x = a then b else m x) rest k = m k
    rw [ih _ hk.2]
    exact if_neg hk.1

theorem storeSeq_reads (ks : List String) :
    ∀ (vs : List ℚ) (m : String → ℚ), ks.Nodup → ks.length = vs.length →
      ks.map (storeSeq m (ks.zip vs)) = vs := by
  induction ks with
  | nil =>
    intro vs m _ hlen
    cases vs with
    | nil => rfl
    | cons v vs => simp at hlen
  | cons k ks ih =>
    intro vs m hnd hlen
    cases vs with
    | nil => simp at hlen
    | cons v vs =>
      simp only [List.nodup_cons] at hnd
      have hlen' : ks.length = vs.length := by simpa using hlen
      show List.map (storeSeq (fun x => if x = k then v else m x) (ks.zip vs))
        (k :: ks) = v :: vs
      rw [List.map_cons]
      have hfst : (ks.zip vs).map Prod.fst = ks :=
        List.map_fst_zip ks vs (le_of_eq hlen')
      have hhead : storeSeq (fun x => if x = k then v else m x) (ks.zip vs) k
          = v := by
        rw [storeSeq_not_mem (ks.zip vs) k _ (by rw [hfst]; exact hnd.1)]
        exact if_pos rfl
      rw [hhead, ih vs _ hnd.2 hlen']

theorem sort_dict_freqs_fil_of_sort (env : TextEnv) (st : FState)
    (h : st.fil.freq_specs_sort = true) :
    (sort_dict_freqs env st).fil.num =
      storeSeq st.fil.num ((st.qlineedit.map (·.objectName)).zip
        (((st.qlineedit.map (·.objectName)).map st.fil.num).insertionSort
          (· ≤ ·))) := by
  unfold sort_dict_freqs
  rw [h]
  rfl

/-- C2: with the `freq_specs_sort` flag set and pairwise-distinct object
names, `sort_dict_freqs` replaces the values stored under exactly those
names with the ascending sort of those same values — the sequence read back
in widget order is the sorted sequence, hence sorted and a permutation of
the prior values — and every other key is untouched; with the flag unset,
no dictionary value changes. -/
theorem sort_dict_freqs_spec (env : TextEnv) (st : FState)
    (hnd : (st.qlineedit.map (·.objectName)).Nodup) :
    (st.fil.freq_specs_sort = true →
      (st.qlineedit.map (·.objectName)).map (sort_dict_freqs env st).fil.num =
        ((st.qlineedit.map (·.objectName)).map st.fil.num).insertionSort
          (· ≤ ·) ∧
      List.Sorted (· ≤ ·)
        ((st.qlineedit.map (·.objectName)).map (sort_dict_freqs env st).fil.num) ∧
      List.Perm
        ((st.qlineedit.map (·.objectName)).map (sort_dict_freqs env st).fil.num)
        ((st.qlineedit.map (·.objectName)).map st.fil.num) ∧
      ∀ key, key ∉ st.qlineedit.map (·.objectName) →
        (sort_dict_freqs env st).fil.num key = st.fil.num key) ∧
    (st.fil.freq_specs_sort = false →
      (sort_dict_freqs env st).fil = st.fil) := by
  constructor
  · intro h
    have hlen : (st.qlineedit.map (·.objectName)).length =
        (((st.qlineedit.map (·.objectName)).map st.fil.num).insertionSort
          (· ≤ ·)).length := by
      rw [(List.perm_insertionSort _ _).length_eq]
      simp
    have hreads := storeSeq_reads (st.qlineedit.map (·.objectName))
      (((st.qlineedit.map (·.objectName)).map st.fil.num).insertionSort (· ≤ ·))
      st.fil.num hnd hlen
    have hmain : (st.qlineedit.map (·.objectName)).map
        (sort_dict_freqs env st).fil.num =
        ((st.qlineedit.map (·.objectName)).map st.fil.num).insertionSort
          (· ≤ ·) := by
      rw [sort_dict_freqs_fil_of_sort env st h]
      exact hreads
    refine ⟨hmain, ?_, ?_, ?_⟩
    · rw [hmain]
      exact List.sorted_insertionSort _ _
    · rw [hmain]
      exact List.perm_insertionSort _ _
    · intro key hkey
      rw [sort_dict_freqs_fil_of_sort env st h]
      refine storeSeq_not_mem _ _ _ ?_
      rw [List.map_fst_zip _ _ (le_of_eq hlen)]
      exact hkey
  · intro h
    unfold sort_dict_freqs
    rw [h]
    rfl

theorem sort_dict_freqs_spec_witness :
    (w2St.qlineedit.map (·.objectName)).map
        (sort_dict_freqs trivEnv w2St).fil.num =
      ((w2St.qlineedit.map (·.objectName)).map w2St.fil.num).insertionSort
        (· ≤ ·) :=
  ((sort_dict_freqs_spec trivEnv w2St (by decide)).1 rfl).1

/-- C2, counterexample to the unrestricted claim: with duplicate object
names `["a", "b", "a"]` and stored values `a = 0`, `b = 5`, the values read
back in widget order after `sort_dict_freqs` are `[5, 0, 5]`, which is not
sorted — so the claim fails without a distinctness assumption on the
names. -/
theorem sort_dict_freqs_dup_counterexample :
    cexSt.fil.freq_specs_sort = true ∧
    ¬ List.Sorted (· ≤ ·)
      ((cexSt.qlineedit.map (·.objectName)).map
        (sort_dict_freqs trivEnv cexSt).fil.num) := by
  constructor
  · rfl
  · decide

theorem store_entry_roundtrip_witness :
    ((store_entry trivEnv
        (FState.mk ⟨fun k => if k = "f_S" then 2 else 0, false⟩ []
          [mkLE "F_PB" "3" true] [] true 1) 0).1.qlineedit.getD 0
        LineEdit.dummy).text = trivEnv.fullFmt 3 :=
  (store_entry_roundtrip trivEnv
    (FState.mk ⟨fun k => if k = "f_S" then 2 else 0, false⟩ []
      [mkLE "F_PB" "3" true] [] true 1) 0 3
    (by decide) rfl rfl (by norm_num) (by decide) rfl (by simp [trivEnv, mkLE])).2.2

theorem load_entries_qlineedit_eq (env : TextEnv) (st : FState) :
    (load_entries env st).qlineedit = st.qlineedit.map (fun le =>
      let f_value : ℚ := st.fil.num le.objectName * st.fil.num "f_S"
      if le.hasFocus then { le with text := env.fullFmt f_value }
      else { le with text := env.rndFmt f_value }) := rfl

theorem load_entries_names (env : TextEnv) (st : FState) :
    (load_entries env st).qlineedit.map (·.objectName) =
      st.qlineedit.map (·.objectName) := by
  rw [load_entries_qlineedit_eq, List.map_map]
  refine List.map_congr_left ?_
  intro le _
  by_cases hf : le.hasFocus <;> simp [hf]

theorem load_entries_length (env : TextEnv) (st : FState) :
    (load_entries env st).qlineedit.length = st.qlineedit.length := by
  rw [load_entries_qlineedit_eq, List.length_map]

/-- `sort_dict_freqs` only rewrites dictionary values and line-edit texts:
labels, object names, the widget counts and `new_labels` are untouched. -/
theorem sort_dict_freqs_frame (env : TextEnv) (st : FState) :
    (sort_dict_freqs env st).qlabels = st.qlabels ∧
    (sort_dict_freqs env st).n_cur_labels = st.n_cur_labels ∧
    (sort_dict_freqs env st).new_labels = st.new_labels ∧
    (sort_dict_freqs env st).qlineedit.map (·.objectName) =
      st.qlineedit.map (·.objectName) ∧
    (sort_dict_freqs env st).qlineedit.length = st.qlineedit.length := by
  cases hb : st.fil.freq_specs_sort with
  | true =>
    unfold sort_dict_freqs
    rw [hb]
    refine ⟨rfl, rfl, rfl, ?_, ?_⟩
    · exact load_entries_names env _
    · exact load_entries_length env _
  | false =>
    unfold sort_dict_freqs
    rw [hb]
    exact ⟨rfl, rfl, rfl, load_entries_names env _, load_entries_length env _⟩

theorem set_labels_loop_length (rtLabel : String → String) :
    ∀ (nls : List String) (ls : List QLabel),
      (set_labels_loop rtLabel ls nls).length = ls.length := by
  intro nls
  induction nls with
  | nil => intro ls; cases ls <;> rfl
  | cons nl nls ih =>
    intro ls
    cases ls with
    | nil => rfl
    | cons lb ls => simp [set_labels_loop, ih]

theorem set_edits_loop_length (f : ℚ → String) (m : String → ℚ) :
    ∀ (nls : List String) (les : List LineEdit),
      (set_edits_loop f m les nls).length = les.length := by
  intro nls
  induction nls with
  | nil => intro les; cases les <;> rfl
  | cons nl nls ih =>
    intro les
    cases les with
    | nil => rfl
    | cons le les => simp [set_edits_loop, ih]

theorem set_edits_loop_names (f : ℚ → String) (m : String → ℚ) :
    ∀ (nls : List String) (les : List LineEdit), nls.length ≤ les.length →
      ((set_edits_loop f m les nls).map (·.objectName)).take nls.length =
        nls := by
  intro nls
  induction nls with
  | nil => intro les _; simp
  | cons nl nls ih =>
    intro les hle
    cases les with
    | nil => simp at hle
    | cons le les =>
      show ((({ le with text := f (m nl), objectName := nl } ::
        set_edits_loop f m les nls).map (·.objectName)).take (nls.length + 1))
          = nl :: nls
      rw [List.map_cons, List.take_succ_cons]
      rw [ih les (by simpa using hle)]

theorem hide_entries_lengths (st : FState) (num : Nat) :
    (hide_entries st num).qlabels.length = st.qlabels.length ∧
    (hide_entries st num).qlineedit.length = st.qlineedit.length := by
  unfold hide_entries
  constructor <;> simp <;> omega

theorem show_entries_lengths (env : TextEnv) (st : FState) (num : Nat)
    (hc : st.n_cur_labels ≤ num)
    (hemp : st.qlabels.length = st.qlineedit.length) :
    (show_entries env st num).qlabels.length = max st.qlabels.length num ∧
    (show_entries env st num).qlineedit.length =
      max st.qlineedit.length num := by
  unfold show_entries
  by_cases h : st.qlabels.length < num
  · rw [if_pos h]
    constructor <;> simp <;> omega
  · rw [if_neg h]
    constructor <;> simp <;> omega

/-- `update_UI` expressed as sorting-and-reloading the state obtained from
the hide/show branch followed by the label/name-setting loops. -/
theorem update_UI_eq (env : TextEnv) (st : FState) (labels : List String) :
    update_UI env st labels =
      sort_dict_freqs env
        (let st0 : FState := { st with new_labels := labels }
         let st1 :=
           if labels.length < st0.n_cur_labels then
             hide_entries st0 labels.length
           else if labels.length > st0.n_cur_labels then
             show_entries env st0 labels.length
           else st0
         { st1 with
           qlabels := set_labels_loop env.rtLabel st1.qlabels labels
           qlineedit := set_edits_loop env.fullFmt st1.fil.num st1.qlineedit
             labels
           n_cur_labels := labels.length }) := rfl

theorem update_UI_core (env : TextEnv) (s1 : FState) (labels : List String)
    (hge : labels.length ≤ s1.qlineedit.length) :
    (sort_dict_freqs env { s1 with
        qlabels := set_labels_loop env.rtLabel s1.qlabels labels
        qlineedit := set_edits_loop env.fullFmt s1.fil.num s1.qlineedit labels
        n_cur_labels := labels.length }).qlabels.length = s1.qlabels.length ∧
    (sort_dict_freqs env { s1 with
        qlabels := set_labels_loop env.rtLabel s1.qlabels labels
        qlineedit := set_edits_loop env.fullFmt s1.fil.num s1.qlineedit labels
        n_cur_labels := labels.length }).qlineedit.length =
      s1.qlineedit.length ∧
    (sort_dict_freqs env { s1 with
        qlabels := set_labels_loop env.rtLabel s1.qlabels labels
        qlineedit := set_edits_loop env.fullFmt s1.fil.num s1.qlineedit labels
        n_cur_labels := labels.length }).n_cur_labels = labels.length ∧
    (((sort_dict_freqs env { s1 with
        qlabels := set_labels_loop env.rtLabel s1.qlabels labels
        qlineedit := set_edits_loop env.fullFmt s1.fil.num s1.qlineedit labels
        n_cur_labels := labels.length }).qlineedit.take labels.length).map
          (·.objectName)) = labels := by
  obtain ⟨hql, hnc, _, hnames, hlen⟩ := sort_dict_freqs_frame env
    { s1 with
      qlabels := set_labels_loop env.rtLabel s1.qlabels labels
      qlineedit := set_edits_loop env.fullFmt s1.fil.num s1.qlineedit labels
      n_cur_labels := labels.length }
  refine ⟨?_, ?_, hnc, ?_⟩
  · rw [hql]
    exact set_labels_loop_length env.rtLabel labels s1.qlabels
  · rw [hlen]
    exact set_edits_loop_length env.fullFmt s1.fil.num labels s1.qlineedit
  · rw [List.map_take, hnames]
    exact set_edits_loop_names env.fullFmt s1.fil.num labels s1.qlineedit hge


theorem update_UI_eq_of_branch (env : TextEnv) (st : FState)
    (labels : List String) (s1 : FState)
    (hbr : (if labels.length < st.n_cur_labels then
              hide_entries { st with new_labels := labels } labels.length
            else if labels.length > st.n_cur_labels then
              show_entries env { st with new_labels := labels } labels.length
            else { st with new_labels := labels }) = s1) :
    update_UI env st labels = sort_dict_freqs env
      { s1 with
        qlabels := set_labels_loop env.rtLabel s1.qlabels labels
        qlineedit := set_edits_loop env.fullFmt s1.fil.num s1.qlineedit labels
        n_cur_labels := labels.length } := by
  subst hbr
  rfl

/-- C10: `update_UI` keeps `len(qlabels) == len(qlineedit)`, never shrinks
either widget list (widgets are only hidden, never removed), leaves
`n_cur_labels` equal to the number of new labels, and leaves the first
`len(new_labels)` line edits carrying exactly the new labels as object
names, in order. -/
theorem update_UI_bookkeeping (env : TextEnv) (st : FState)
    (labels : List String)
    (hemp : st.qlabels.length = st.qlineedit.length)
    (hcur : st.n_cur_labels ≤ st.qlineedit.length) :
    (update_UI env st labels).qlabels.length =
      (update_UI env st labels).qlineedit.length ∧
    st.qlabels.length ≤ (update_UI env st labels).qlabels.length ∧
    st.qlineedit.length ≤ (update_UI env st labels).qlineedit.length ∧
    (update_UI env st labels).n_cur_labels = labels.length ∧
    ((update_UI env st labels).qlineedit.take labels.length).map
      (·.objectName) = labels := by
  have h0a : ({ st with new_labels := labels } : FState).qlabels.length =
    st.qlabels.length := rfl
  have h0b : ({ st with new_labels := labels } : FState).qlineedit.length =
    st.qlineedit.length := rfl
  by_cases h1 : labels.length < st.n_cur_labels
  · have heqn := update_UI_eq_of_branch env st labels
      (hide_entries { st with new_labels := labels } labels.length) (if_pos h1)
    obtain ⟨ha, hb⟩ :=
      hide_entries_lengths { st with new_labels := labels } labels.length
    obtain ⟨c1, c2, c3, c4⟩ := update_UI_core env
      (hide_entries { st with new_labels := labels } labels.length) labels
      (by omega)
    rw [heqn]
    exact ⟨by omega, by omega, by omega, c3, c4⟩
  · by_cases h2 : labels.length > st.n_cur_labels
    · have heqn := update_UI_eq_of_branch env st labels
        (show_entries env { st with new_labels := labels } labels.length)
        (by rw [if_neg h1, if_pos h2])
      obtain ⟨ha, hb⟩ := show_entries_lengths env
        { st with new_labels := labels } labels.length (le_of_lt h2) hemp
      obtain ⟨c1, c2, c3, c4⟩ := update_UI_core env
        (show_entries env { st with new_labels := labels } labels.length)
        labels (by omega)
      rw [heqn]
      exact ⟨by omega, by omega, by omega, c3, c4⟩
    · have heqn := update_UI_eq_of_branch env st labels
        { st with new_labels := labels } (by rw [if_neg h1, if_neg h2])
      obtain ⟨c1, c2, c3, c4⟩ := update_UI_core env
        { st with new_labels := labels } labels (by omega)
      rw [heqn]
      exact ⟨by omega, by omega, by omega, c3, c4⟩

theorem update_UI_bookkeeping_witness :
    (update_UI trivEnv emptySt ["F_PB"]).n_cur_labels = ["F_PB"].length ∧
    ((update_UI trivEnv emptySt ["F_PB"]).qlineedit.take
      (["F_PB"] : List String).length).map (·.objectName) = ["F_PB"] :=
  ⟨(update_UI_bookkeeping trivEnv emptySt ["F_PB"] rfl (by decide)).2.2.2.1,
    (update_UI_bookkeeping trivEnv emptySt ["F_PB"] rfl (by decide)).2.2.2.2⟩

end Pyfda

namespace PyFDA

/-- C6: `startDesignFilt` delegates in order: the widget entries are first
written into `fb.gD['selFilter']` by `writeAll`, the filter object is built
by `objectWizzard` from the design-method name `dm` read from the updated
dictionary, the method named `rt + fo` is invoked on it with that spec
dictionary, and afterwards the object's `zpk` and `coeffs` attributes are
copied into `fb.gD['zpk']` and `fb.gD['coeffs']`. -/
theorem startDesignFilt_delegation {Z F : Type} (w : WidgetEnv)
    (env : FilterEnv Z F) (g : GD Z) :
    (startDesignFilt w env g).zpk =
      some (env.design (env.objectWizzard ((writeAll w g.selFilter) "dm"))
        ((writeAll w g.selFilter) "rt" ++ (writeAll w g.selFilter) "fo")
        (writeAll w g.selFilter)).zpk ∧
    (startDesignFilt w env g).coeffs =
      some (storeCoeffs
        (env.design (env.objectWizzard ((writeAll w g.selFilter) "dm"))
          ((writeAll w g.selFilter) "rt" ++ (writeAll w g.selFilter) "fo")
          (writeAll w g.selFilter)).coeffs) ∧
    writeAll w g.selFilter =
      w.wspecUpd (w.aspecUpd (w.fspecUpd (w.foUpd g.selFilter))) :=
  ⟨rfl, rfl, rfl⟩

/-- C9: the value stored into `fb.gD['coeffs']` after the synthesis call is
the pair `(coeffs, [1])` with dummy denominator when the object's `coeffs`
attribute is one-dimensional (FIR), and `coeffs` unchanged otherwise (IIR);
in both shapes that occur — a 1-d `b` array, or a 2-d `[b, a]` array — the
stored value carries both numerator and denominator. -/
theorem storeCoeffs_cases (c : NDArr) :
    (c.ndim = 1 → storeCoeffs c = StoredCoeffs.withDen c [1]) ∧
    (c.ndim ≠ 1 → storeCoeffs c = StoredCoeffs.asIs c) ∧
    (∀ b : List ℚ, (storeCoeffs (NDArr.one b)).numDen = some (b, [1])) ∧
    (∀ b a : List ℚ,
      (storeCoeffs (NDArr.two [b, a])).numDen = some (b, a)) := by
  refine ⟨fun h => by simp [storeCoeffs, h], fun h => by simp [storeCoeffs, h],
    fun b => ?_, fun b a => ?_⟩
  · simp [storeCoeffs, NDArr.ndim, StoredCoeffs.numDen]
  · simp [storeCoeffs, NDArr.ndim, StoredCoeffs.numDen]

theorem storeCoeffs_cases_witness :
    storeCoeffs (NDArr.one [1, 2]) =
        StoredCoeffs.withDen (NDArr.one [1, 2]) [1] ∧
    storeCoeffs (NDArr.two [[1, 2], [1]]) =
        StoredCoeffs.asIs (NDArr.two [[1, 2], [1]]) :=
  ⟨(storeCoeffs_cases (NDArr.one [1, 2])).1 rfl,
    (storeCoeffs_cases (NDArr.two [[1, 2], [1]])).2.1 (by decide)⟩

end PyFDA
